import Mathlib

/-!
Verification of the column virtualization layer of `trace_processor`
(`src/trace_processor/storage_columns.h`).

The columns are embedded shallowly:
* a `std::deque<T>` of numeric values becomes a `List Int` (the numeric element
  types the header instantiates are the fixed-width integers `uint8_t`,
  `int32_t`, `uint32_t`, `int64_t`, whose mathematical values are integers;
  the type limits `kTMin`/`kTMax` become explicit fields);
* `uint32_t` indices and sizes become `Nat`;
* SQLite operator codes become the inductive `SqlOp`, and the dynamic
  `sqlite3_value` tagged union becomes the inductive `SqlValue`;
* a fallible/fatal C++ path (`PERFETTO_FATAL`, `PERFETTO_CHECK`) becomes an
  `Option` result, `none` marking the fatal branch.

Helper code from `sqlite_utils.h`, `filtered_row_index.h` and
`trace_storage.h` is declared but not defined in the header, so those helpers
are modelled from the specification; each such definition carries a
`Modelled from the spec:` doc comment.
-/

namespace StorageColumns

/-- `StorageColumn::Bounds` (storage_columns.h lines 32-36): a half-open row
index range with the in-class initializers `min_idx = 0`,
`max_idx = std::numeric_limits<uint32_t>::max() = 4294967295`,
`consumed = false`. -/
structure Bounds where
  min_idx : Nat := 0
  max_idx : Nat := 4294967295
  consumed : Bool := false
  deriving Repr, DecidableEq

/-- The SQLite constraint operator codes routed to a column: the six
comparisons plus the engine-specific placeholders (`IS NULL`, `GLOB`) the spec
lists as passed through opaquely. -/
inductive SqlOp where
  | eq | ne | lt | le | gt | ge | isNull | glob
  deriving Repr, DecidableEq

/-- The dynamic `sqlite3_value` tagged union: integer, floating point, text or
null. A floating-point payload is not carried: no claim evaluates the value
of a double, only which dispatch branch its tag selects. -/
inductive SqlValue where
  | integer (i : Int) | float | text (s : String) | null
  deriving Repr, DecidableEq

/-- Modelled from the spec: `sqlite_utils::IsOpEq` recognizes the equality
operator code (`sqlite_utils.h` is not part of the provided sources). -/
def IsOpEq : SqlOp → Bool
  | .eq => true
  | _ => false

/-- Modelled from the spec: `sqlite_utils::IsOpGe`. -/
def IsOpGe : SqlOp → Bool
  | .ge => true
  | _ => false

/-- Modelled from the spec: `sqlite_utils::IsOpGt`. -/
def IsOpGt : SqlOp → Bool
  | .gt => true
  | _ => false

/-- Modelled from the spec: `sqlite_utils::IsOpLe`. -/
def IsOpLe : SqlOp → Bool
  | .le => true
  | _ => false

/-- Modelled from the spec: `sqlite_utils::IsOpLt`. -/
def IsOpLt : SqlOp → Bool
  | .lt => true
  | _ => false

/-- Modelled from the spec: `sqlite_utils::FindGtBound<T>` turns a
greater-than constraint into the inclusive lower end of the `[min, max]`
value range ("`>` / `>=` sets only `min`"): for `>=` the literal itself, for
the strict `>` the first integer above the literal. -/
def FindGtBound (is_eq : Bool) (v : Int) : Int :=
  if is_eq then v else v + 1

/-- Modelled from the spec: `sqlite_utils::FindLtBound<T>` turns a less-than
constraint into the inclusive upper end of the `[min, max]` value range. -/
def FindLtBound (is_eq : Bool) (v : Int) : Int :=
  if is_eq then v else v - 1

/-- Modelled from the spec: `sqlite_utils::FindEqBound<T>` ("`=` sets both to
the same value"). -/
def FindEqBound (v : Int) : Int := v

/-- Modelled from the spec: `sqlite_utils::GetPredicateForOp<C>` maps an
operator code to the binary comparison it denotes, over any comparison
domain `C`; an operator outside the comparison vocabulary is a fatal
contract violation (`none`). -/
def GetPredicateForOp {C : Type} [LinearOrder C] : SqlOp → Option (C → C → Bool)
  | .eq => some fun a b => decide (a = b)
  | .ne => some fun a b => decide (a ≠ b)
  | .lt => some fun a b => decide (a < b)
  | .le => some fun a b => decide (a ≤ b)
  | .gt => some fun a b => decide (b < a)
  | .ge => some fun a b => decide (b ≤ a)
  | _ => none

/-- Modelled from the spec: `sqlite_utils::ExtractSqliteValue<int64_t>`
extracts the 64-bit signed integer payload of a dynamic value; a non-integer
value is a caller contract violation (`none`). -/
def ExtractSqliteValueInt : SqlValue → Option Int
  | .integer i => some i
  | _ => none

/-- Modelled from the spec: `FilteredRowIndex` (filtered_row_index.h is not
part of the provided sources) is the executor-owned candidate row set of one
scan, held as the list of surviving row indices. -/
structure FilteredRowIndex where
  rows : List Nat
  deriving Repr, DecidableEq

/-- Modelled from the spec: `FilteredRowIndex::FilterRows` intersects the
current candidate set with a boolean predicate over row indices. -/
def FilteredRowIndex.FilterRows (index : FilteredRowIndex) (p : Nat → Bool) :
    FilteredRowIndex :=
  ⟨index.rows.filter p⟩

/-- Modelled from the spec: `sqlite_utils::CompareValuesAsc` is the natural
three-way comparison of two values. -/
def CompareValuesAsc {α : Type} [LinearOrder α] (f s : α) : Int :=
  if f < s then -1 else if s < f then 1 else 0

/-- Modelled from the spec: `sqlite_utils::CompareValuesDesc` is the
three-way comparison in the descending direction. -/
def CompareValuesDesc {α : Type} [LinearOrder α] (f s : α) : Int :=
  if f < s then 1 else if s < f then -1 else 0

/-- `QueryConstraints::OrderBy`: a column number and a descending flag; the
column implementations read only `desc`. -/
structure OrderBy where
  iColumn : Nat := 0
  desc : Bool := false
  deriving Repr, DecidableEq

/-- `std::lower_bound` over a deque: on a sorted (partitioned) range it
returns the first index whose element is not less than `x`; the length when
there is none. -/
def lowerBoundIdx (l : List Int) (x : Int) : Nat :=
  l.findIdx fun v => decide (x ≤ v)

/-- `std::upper_bound` over a deque: on a sorted (partitioned) range it
returns the first index whose element is greater than `x`; the length when
there is none. -/
def upperBoundIdx (l : List Int) (x : Int) : Nat :=
  l.findIdx fun v => decide (x < v)

/-- `NumericColumn<T>` (lines 74-186): a borrowed deque of numeric values,
the natural-order flag, the type limits `kTMin = numeric_limits<T>::lowest()`
and `kTMax = numeric_limits<T>::max()` (lines 170-171), and whether `T` is an
integral type (`std::is_integral<T>::value`, used by the `Filter`
dispatch). -/
structure NumericColumn where
  deque : List Int
  is_naturally_ordered : Bool := false
  kTMin : Int
  kTMax : Int
  t_is_integral : Bool := true
  deriving Repr, DecidableEq

/-- `NumericColumn::ReportResult` (lines 85-87): report `(*deque_)[row]`. -/
def NumericColumn.ReportResult (c : NumericColumn) (row : Nat) : Int :=
  c.deque.getD row 0

/-- `NumericColumn::IsNaturallyOrdered` (line 150). -/
def NumericColumn.IsNaturallyOrdered (c : NumericColumn) : Bool :=
  c.is_naturally_ordered

/-- Lines 99-109 of `NumericColumn::BoundFilter`: resolve the operator/value
pair into the inclusive `[min, max]` value range, starting from the sentinels
`kTMin`/`kTMax` and narrowing one end (both for `=`) via the else-if chain. -/
def NumericColumn.resolvedRange (c : NumericColumn) (op : SqlOp) (v : Int) :
    Int × Int :=
  if IsOpGe op || IsOpGt op then (FindGtBound (IsOpGe op) v, c.kTMax)
  else if IsOpLe op || IsOpLt op then (c.kTMin, FindLtBound (IsOpLe op) v)
  else if IsOpEq op then (FindEqBound v, FindEqBound v)
  else (c.kTMin, c.kTMax)

/-- `NumericColumn::BoundFilter` (lines 89-124): start from
`{0, deque_->size(), false}`; return it unchanged unless naturally ordered;
resolve the `[min, max]` value range; if it still spans the sentinel range
return the unconsumed bound; otherwise `min_idx` is `std::lower_bound` over
the whole deque at `min`, `max_idx` is `std::upper_bound` at `max` searched
from `min_it`, and the bound is consumed. -/
def NumericColumn.BoundFilter (c : NumericColumn) (op : SqlOp) (sqlite_val : Int) :
    Bounds :=
  if !c.is_naturally_ordered then
    { min_idx := 0, max_idx := c.deque.length, consumed := false }
  else if (c.resolvedRange op sqlite_val).1 ≤ c.kTMin ∧
      c.kTMax ≤ (c.resolvedRange op sqlite_val).2 then
    { min_idx := 0, max_idx := c.deque.length, consumed := false }
  else
    { min_idx := lowerBoundIdx c.deque (c.resolvedRange op sqlite_val).1,
      max_idx := lowerBoundIdx c.deque (c.resolvedRange op sqlite_val).1 +
        upperBoundIdx (c.deque.drop (lowerBoundIdx c.deque (c.resolvedRange op sqlite_val).1))
          (c.resolvedRange op sqlite_val).2,
      consumed := true }

/-- `NumericColumn::FilterWithCast<C>` (lines 173-183): look up the binary
predicate for the operator (fatal on an unsupported operator), then narrow
the row index by `binary_op(static_cast<C>((*deque_)[row]), extracted)`. The
comparison domain `C` and the cast into it are parameters, exactly as in the
template. -/
def NumericColumn.FilterWithCast {C : Type} [LinearOrder C] (c : NumericColumn)
    (castF : Int → C) (op : SqlOp) (extracted : C) (index : FilteredRowIndex) :
    Option FilteredRowIndex :=
  (GetPredicateForOp op).map fun binary_op =>
    index.FilterRows fun row => binary_op (castF (c.deque.getD row 0)) extracted

/-- The comparison domain selected by the dispatch in `NumericColumn::Filter`
(lines 129-136). -/
inductive FilterDomain where
  | int64 | double | fatal
  deriving Repr, DecidableEq

/-- The branch structure of `NumericColumn::Filter` (lines 129-136): an
integer value compared against an integral `T` uses the 64-bit signed integer
domain; otherwise an integer or floating-point value uses the double domain;
any other value kind hits `PERFETTO_FATAL`. -/
def NumericColumn.FilterDomainOf (t_is_integral : Bool) (value : SqlValue) :
    FilterDomain :=
  match value with
  | .integer _ => if t_is_integral then .int64 else .double
  | .float => .double
  | .text _ => .fatal
  | .null => .fatal

/-- `NumericColumn::Filter` on its 64-bit signed integer path
(`FilterWithCast<int64_t>`, line 131): for the integral element types the
header instantiates, `static_cast<int64_t>` preserves the mathematical
value, so the cast is the identity. -/
def NumericColumn.FilterInt64 (c : NumericColumn) (op : SqlOp) (extracted : Int)
    (index : FilteredRowIndex) : Option FilteredRowIndex :=
  c.FilterWithCast (fun x => x) op extracted index

/-- `NumericColumn::Sort` (lines 139-148): descending gives
`CompareValuesDesc` of the two rows' deque values, ascending gives
`CompareValuesAsc`. -/
def NumericColumn.Sort (c : NumericColumn) (ob : OrderBy) : Nat → Nat → Int :=
  if ob.desc then
    fun f s => CompareValuesDesc (c.deque.getD f 0) (c.deque.getD s 0)
  else
    fun f s => CompareValuesAsc (c.deque.getD f 0) (c.deque.getD s 0)

/-- `StringColumn<Id>` (lines 188-240): a borrowed deque of string-table ids
plus the borrowed shared string table. -/
structure StringColumn where
  deque : List Nat
  string_map : List String
  deriving Repr, DecidableEq

/-- The id-to-text resolution `(*string_map_)[(*deque_)[row]]` shared by
`ReportResult` and `Sort`. -/
def StringColumn.resolveString (c : StringColumn) (row : Nat) : String :=
  c.string_map.getD (c.deque.getD row 0) ""

/-- `StringColumn::ReportResult` (lines 199-206): resolve the row's id
through the string table; an empty string is reported as SQL null (`none`),
anything else as that text. -/
def StringColumn.ReportResult (c : StringColumn) (row : Nat) : Option String :=
  let str := c.resolveString row
  if str.isEmpty then none else some str

/-- `StringColumn::BoundFilter` (lines 208-212): always the unconsumed range
`{0, deque_->size(), false}`. -/
def StringColumn.BoundFilter (c : StringColumn) (_ : SqlOp) (_ : SqlValue) :
    Bounds :=
  { min_idx := 0, max_idx := c.deque.length, consumed := false }

/-- `StringColumn::Filter` (line 214): a no-op — the row index is returned
untouched. -/
def StringColumn.Filter (_ : StringColumn) (_ : SqlOp) (_ : SqlValue)
    (index : FilteredRowIndex) : FilteredRowIndex :=
  index

/-- `StringColumn::Sort` (lines 216-229): three-way comparison of the
resolved strings, descending or ascending. -/
def StringColumn.Sort (c : StringColumn) (ob : OrderBy) : Nat → Nat → Int :=
  if ob.desc then
    fun f s => CompareValuesDesc (c.resolveString f) (c.resolveString s)
  else
    fun f s => CompareValuesAsc (c.resolveString f) (c.resolveString s)

/-- `StringColumn::IsNaturallyOrdered` (line 235): always false. -/
def StringColumn.IsNaturallyOrdered (_ : StringColumn) : Bool := false

/-- Modelled from the spec: `TraceStorage::CreateRowId` (trace_storage.h is
not part of the provided sources) packs the table identity into the high
bits and the 32-bit row index into the low bits of one 64-bit value. -/
def CreateRowId (table_id row : Nat) : Int :=
  (table_id : Int) * 4294967296 + (row : Int)

/-- `IdColumn` (lines 273-319): no backing storage, only the table identity
tag. -/
structure IdColumn where
  table_id : Nat
  deriving Repr, DecidableEq

/-- `IdColumn::ReportResult` (lines 278-281): report the encoded RowId. -/
def IdColumn.ReportResult (c : IdColumn) (row : Nat) : Int :=
  CreateRowId c.table_id row

/-- `IdColumn::BoundFilter` (line 283): `return Bounds{};` — the
default-constructed bounds, for every operator and value. -/
def IdColumn.BoundFilter (_ : IdColumn) (_ : SqlOp) (_ : SqlValue) : Bounds :=
  {}

/-- `IdColumn::Filter` (lines 285-294): predicate for the operator over the
RowId domain (fatal on an unsupported operator), then narrow by comparing
each row's encoded RowId against the extracted literal. -/
def IdColumn.Filter (c : IdColumn) (op : SqlOp) (extracted : Int)
    (index : FilteredRowIndex) : Option FilteredRowIndex :=
  (GetPredicateForOp op).map fun binary_op =>
    index.FilterRows fun row => binary_op (CreateRowId c.table_id row) extracted

/-- `IdColumn::Sort` (lines 296-309): three-way comparison of the encoded
RowIds, descending or ascending. -/
def IdColumn.Sort (c : IdColumn) (ob : OrderBy) : Nat → Nat → Int :=
  if ob.desc then
    fun f s => CompareValuesDesc (CreateRowId c.table_id f) (CreateRowId c.table_id s)
  else
    fun f s => CompareValuesAsc (CreateRowId c.table_id f) (CreateRowId c.table_id s)

/-- `IdColumn::IsNaturallyOrdered` (line 315): always false. -/
def IdColumn.IsNaturallyOrdered (_ : IdColumn) : Bool := false

/-- The spec's example numeric column: `[10, 20, 20, 30, 40]`, naturally
ordered, with `int32_t` limits. -/
def exampleNumeric : NumericColumn :=
  { deque := [10, 20, 20, 30, 40], is_naturally_ordered := true,
    kTMin := -2147483648, kTMax := 2147483647, t_is_integral := true }

/-- The spec's example string column: ids `[0, 1, 0]` over the string table
`["", "foo"]`. -/
def exampleString : StringColumn :=
  { deque := [0, 1, 0], string_map := ["", "foo"] }

/-- The spec's example id column: table identity 3. -/
def exampleId : IdColumn := { table_id := 3 }

theorem getD_eq_getElem_int (l : List Int) (i : Nat) (h : i < l.length) :
    l.getD i 0 = l[i] := by
  simp [List.getD_eq_getElem?_getD, List.getElem?_eq_getElem h]

theorem getD_mem_int {l : List Int} {i : Nat} (h : i < l.length) :
    l.getD i 0 ∈ l := by
  rw [getD_eq_getElem_int l i h]
  exact List.getElem_mem h

theorem getD_drop_int (l : List Int) (m i : Nat) :
    (l.drop m).getD i 0 = l.getD (m + i) 0 := by
  simp [List.getD_eq_getElem?_getD, List.getElem?_drop]

theorem sorted_getD_mono {l : List Int} (hs : l.Sorted (· ≤ ·)) {i j : Nat}
    (hij : i ≤ j) (hj : j < l.length) : l.getD i 0 ≤ l.getD j 0 := by
  have hi : i < l.length := Nat.lt_of_le_of_lt hij hj
  rw [getD_eq_getElem_int l i hi, getD_eq_getElem_int l j hj]
  rcases Nat.eq_or_lt_of_le hij with h | h
  · subst h
    exact le_refl _
  · have h2 := List.pairwise_iff_get.mp hs ⟨i, hi⟩ ⟨j, hj⟩ (Fin.mk_lt_mk.mpr h)
    simpa using h2

theorem lowerBoundIdx_le_length (l : List Int) (x : Int) :
    lowerBoundIdx l x ≤ l.length :=
  List.findIdx_le_length _

theorem upperBoundIdx_le_length (l : List Int) (x : Int) :
    upperBoundIdx l x ≤ l.length :=
  List.findIdx_le_length _

theorem getD_lt_of_lt_lowerBoundIdx {l : List Int} {x : Int} {i : Nat}
    (h : i < lowerBoundIdx l x) : l.getD i 0 < x := by
  have hi : i < l.length := Nat.lt_of_lt_of_le h (lowerBoundIdx_le_length l x)
  have h2 := List.not_of_lt_findIdx h
  rw [getD_eq_getElem_int l i hi]
  simpa using h2

theorem getD_le_of_lt_upperBoundIdx {l : List Int} {x : Int} {i : Nat}
    (h : i < upperBoundIdx l x) : l.getD i 0 ≤ x := by
  have hi : i < l.length := Nat.lt_of_lt_of_le h (upperBoundIdx_le_length l x)
  have h2 := List.not_of_lt_findIdx h
  rw [getD_eq_getElem_int l i hi]
  simpa using h2

theorem le_getD_lowerBoundIdx {l : List Int} {x : Int}
    (h : lowerBoundIdx l x < l.length) : x ≤ l.getD (lowerBoundIdx l x) 0 := by
  have h2 := @List.findIdx_getElem _ (fun v => decide (x ≤ v)) l h
  rw [getD_eq_getElem_int l _ h]
  simpa using h2

theorem lt_getD_upperBoundIdx {l : List Int} {x : Int}
    (h : upperBoundIdx l x < l.length) : x < l.getD (upperBoundIdx l x) 0 := by
  have h2 := @List.findIdx_getElem _ (fun v => decide (x < v)) l h
  rw [getD_eq_getElem_int l _ h]
  simpa using h2

theorem le_getD_of_lowerBoundIdx_le {l : List Int} (hs : l.Sorted (· ≤ ·))
    {x : Int} {i : Nat} (h : lowerBoundIdx l x ≤ i) (hi : i < l.length) :
    x ≤ l.getD i 0 := by
  have hlb : lowerBoundIdx l x < l.length := Nat.lt_of_le_of_lt h hi
  exact le_trans (le_getD_lowerBoundIdx hlb) (sorted_getD_mono hs h hi)

/-- Membership in the half-open index range computed by the consumed branch of
`NumericColumn::BoundFilter` is exactly membership of the row's value in the
inclusive value range `[mn, mx]`, for a sorted deque. -/
theorem mem_bounds_iff {l : List Int} (hs : l.Sorted (· ≤ ·)) (mn mx : Int)
    {row : Nat} (hrow : row < l.length) :
    (lowerBoundIdx l mn ≤ row ∧
      row < lowerBoundIdx l mn + upperBoundIdx (l.drop (lowerBoundIdx l mn)) mx) ↔
    (mn ≤ l.getD row 0 ∧ l.getD row 0 ≤ mx) := by
  constructor
  · rintro ⟨h1, h2⟩
    refine ⟨le_getD_of_lowerBoundIdx_le hs h1 hrow, ?_⟩
    have hd : row - lowerBoundIdx l mn < upperBoundIdx (l.drop (lowerBoundIdx l mn)) mx := by
      omega
    have h3 := getD_le_of_lt_upperBoundIdx hd
    rwa [getD_drop_int, Nat.add_sub_cancel' h1] at h3
  · rintro ⟨h1, h2⟩
    have hge : lowerBoundIdx l mn ≤ row := by
      by_contra hc
      push_neg at hc
      exact absurd h1 (not_le_of_lt (getD_lt_of_lt_lowerBoundIdx hc))
    refine ⟨hge, ?_⟩
    by_contra hc
    push_neg at hc
    have hub : upperBoundIdx (l.drop (lowerBoundIdx l mn)) mx < (l.drop (lowerBoundIdx l mn)).length := by
      rw [List.length_drop]
      omega
    have hgt := lt_getD_upperBoundIdx hub
    rw [getD_drop_int] at hgt
    have hmono : l.getD (lowerBoundIdx l mn + upperBoundIdx (l.drop (lowerBoundIdx l mn)) mx) 0 ≤ l.getD row 0 :=
      sorted_getD_mono hs (by omega) hrow
    omega

/-- If the resolved `[min, max]` value range does not span the sentinel range,
the operator was one of the five range-narrowing comparisons: for every other
operator `resolvedRange` leaves the sentinels untouched. -/
theorem cmp_op_of_not_sentinel (c : NumericColumn) (op : SqlOp) (v : Int)
    (h : ¬((c.resolvedRange op v).1 ≤ c.kTMin ∧ c.kTMax ≤ (c.resolvedRange op v).2)) :
    (IsOpGe op || IsOpGt op || IsOpLe op || IsOpLt op || IsOpEq op) = true := by
  cases op <;>
    simp_all [NumericColumn.resolvedRange, IsOpGe, IsOpGt, IsOpLe, IsOpLt, IsOpEq]

/-- For each of the five range-narrowing comparison operators, a value inside
the type range satisfies the operator's binary predicate against the literal
exactly when it lies in the inclusive resolved `[min, max]` value range. -/
theorem pred_iff_mem_resolvedRange (c : NumericColumn) (op : SqlOp) (v : Int)
    (p : Int → Int → Bool) (hp : GetPredicateForOp op = some p)
    (hop : (IsOpGe op || IsOpGt op || IsOpLe op || IsOpLt op || IsOpEq op) = true)
    (x : Int) (hx1 : c.kTMin ≤ x) (hx2 : x ≤ c.kTMax) :
    (p x v = true ↔ ((c.resolvedRange op v).1 ≤ x ∧ x ≤ (c.resolvedRange op v).2)) := by
  cases op
  case ne => simp [IsOpGe, IsOpGt, IsOpLe, IsOpLt, IsOpEq] at hop
  case isNull => simp [IsOpGe, IsOpGt, IsOpLe, IsOpLt, IsOpEq] at hop
  case glob => simp [IsOpGe, IsOpGt, IsOpLe, IsOpLt, IsOpEq] at hop
  all_goals
    simp only [GetPredicateForOp, Option.some.injEq] at hp
    subst hp
    simp only [NumericColumn.resolvedRange, IsOpGe, IsOpGt, IsOpLe, IsOpLt, IsOpEq,
      FindGtBound, FindLtBound, FindEqBound, Bool.false_or, Bool.true_or, Bool.or_false,
      if_true, if_false, decide_eq_true_eq, Bool.false_eq_true, ite_true, ite_false,
      Bool.true_eq_false]
    omega

/-- `NumericColumn::BoundFilter` either returns the unconsumed full range (not
naturally ordered, or the resolved value range still spans the sentinels) or
the consumed binary-search range. -/
theorem boundFilter_cases (c : NumericColumn) (op : SqlOp) (v : Int) :
    (c.BoundFilter op v = { min_idx := 0, max_idx := c.deque.length, consumed := false } ∧
      (c.is_naturally_ordered = false ∨
        ((c.resolvedRange op v).1 ≤ c.kTMin ∧ c.kTMax ≤ (c.resolvedRange op v).2))) ∨
    (c.is_naturally_ordered = true ∧
      ¬((c.resolvedRange op v).1 ≤ c.kTMin ∧ c.kTMax ≤ (c.resolvedRange op v).2) ∧
      c.BoundFilter op v =
        { min_idx := lowerBoundIdx c.deque (c.resolvedRange op v).1,
          max_idx := lowerBoundIdx c.deque (c.resolvedRange op v).1 +
            upperBoundIdx (c.deque.drop (lowerBoundIdx c.deque (c.resolvedRange op v).1))
              (c.resolvedRange op v).2,
          consumed := true }) := by
  unfold NumericColumn.BoundFilter
  by_cases h1 : c.is_naturally_ordered = true
  · by_cases h2 : ((c.resolvedRange op v).1 ≤ c.kTMin ∧ c.kTMax ≤ (c.resolvedRange op v).2)
    · exact Or.inl ⟨by simp [h1, h2], Or.inr h2⟩
    · exact Or.inr ⟨h1, h2, by simp [h1, h2]⟩
  · refine Or.inl ⟨by simp [h1], Or.inl (by simpa using h1)⟩

/-- C1: for every naturally ordered `NumericColumn` (backing sequence sorted
ascending, values within the type limits), for every comparison operator and
literal value, a valid row index outside the `[min_idx, max_idx)` range
returned by `BoundFilter` does not satisfy the predicate implied by the
operator and value: the bounds never exclude a matching row. -/
theorem numericColumn_boundFilter_sound (c : NumericColumn)
    (hord : c.is_naturally_ordered = true)
    (hsort : c.deque.Sorted (· ≤ ·))
    (hrange : ∀ x ∈ c.deque, c.kTMin ≤ x ∧ x ≤ c.kTMax)
    (op : SqlOp) (v : Int) (p : Int → Int → Bool)
    (hp : GetPredicateForOp op = some p)
    (row : Nat) (hrow : row < c.deque.length)
    (hout : row < (c.BoundFilter op v).min_idx ∨ (c.BoundFilter op v).max_idx ≤ row) :
    p (c.deque.getD row 0) v = false := by
  rcases boundFilter_cases c op v with ⟨heq, _⟩ | ⟨_, hns, heq⟩
  · rw [heq] at hout
    simp at hout
    omega
  · rw [heq] at hout
    simp only at hout
    have hx := hrange _ (getD_mem_int hrow)
    have hiff := pred_iff_mem_resolvedRange c op v p hp
      (cmp_op_of_not_sentinel c op v hns) _ hx.1 hx.2
    have hmem := mem_bounds_iff hsort (c.resolvedRange op v).1 (c.resolvedRange op v).2 hrow
    rw [Bool.eq_false_iff]
    intro htrue
    have hin := hmem.mpr (hiff.mp htrue)
    omega

/-- C1 witness: the spec's example column `[10, 20, 20, 30, 40]` with
`BoundFilter(>=, 20) = {1, 5, true}`: row 0 lies outside and indeed fails
`>= 20`. -/
theorem numericColumn_boundFilter_sound_witness :
    exampleNumeric.is_naturally_ordered = true ∧
    exampleNumeric.deque.Sorted (· ≤ ·) ∧
    (∀ x ∈ exampleNumeric.deque, exampleNumeric.kTMin ≤ x ∧ x ≤ exampleNumeric.kTMax) ∧
    GetPredicateForOp (C := Int) SqlOp.ge = some (fun a b => decide (b ≤ a)) ∧
    0 < exampleNumeric.deque.length ∧
    (0 < (exampleNumeric.BoundFilter SqlOp.ge 20).min_idx ∨
      (exampleNumeric.BoundFilter SqlOp.ge 20).max_idx ≤ 0) ∧
    (fun a b : Int => decide (b ≤ a)) (exampleNumeric.deque.getD 0 0) 20 = false :=
  ⟨rfl, by decide, by decide, rfl, by decide, by decide,
    numericColumn_boundFilter_sound exampleNumeric rfl (by decide) (by decide)
      SqlOp.ge 20 (fun a b => decide (b ≤ a)) rfl 0 (by decide) (by decide)⟩

/-- C2: whenever `NumericColumn::BoundFilter` on a sorted, type-bounded deque
returns a consumed bound, a valid row index lies inside `[min_idx, max_idx)`
exactly when its value satisfies the predicate implied by the operator and
value: the consumed range equals the predicate's matching set. -/
theorem numericColumn_boundFilter_tight (c : NumericColumn)
    (hsort : c.deque.Sorted (· ≤ ·))
    (hrange : ∀ x ∈ c.deque, c.kTMin ≤ x ∧ x ≤ c.kTMax)
    (op : SqlOp) (v : Int) (p : Int → Int → Bool)
    (hp : GetPredicateForOp op = some p)
    (hcons : (c.BoundFilter op v).consumed = true)
    (row : Nat) (hrow : row < c.deque.length) :
    ((c.BoundFilter op v).min_idx ≤ row ∧ row < (c.BoundFilter op v).max_idx) ↔
      p (c.deque.getD row 0) v = true := by
  rcases boundFilter_cases c op v with ⟨heq, _⟩ | ⟨_, hns, heq⟩
  · rw [heq] at hcons
    simp at hcons
  · rw [heq]
    simp only
    have hx := hrange _ (getD_mem_int hrow)
    have hiff := pred_iff_mem_resolvedRange c op v p hp
      (cmp_op_of_not_sentinel c op v hns) _ hx.1 hx.2
    exact (mem_bounds_iff hsort (c.resolvedRange op v).1 (c.resolvedRange op v).2 hrow).trans
      hiff.symm

/-- C2 witness: on the example column, `BoundFilter(>=, 20) = {1, 5, true}`
and row 1 inside the range satisfies `>= 20`. -/
theorem numericColumn_boundFilter_tight_witness :
    exampleNumeric.deque.Sorted (· ≤ ·) ∧
    (∀ x ∈ exampleNumeric.deque, exampleNumeric.kTMin ≤ x ∧ x ≤ exampleNumeric.kTMax) ∧
    GetPredicateForOp (C := Int) SqlOp.ge = some (fun a b => decide (b ≤ a)) ∧
    (exampleNumeric.BoundFilter SqlOp.ge 20).consumed = true ∧
    1 < exampleNumeric.deque.length ∧
    (((exampleNumeric.BoundFilter SqlOp.ge 20).min_idx ≤ 1 ∧
        1 < (exampleNumeric.BoundFilter SqlOp.ge 20).max_idx) ↔
      (fun a b : Int => decide (b ≤ a)) (exampleNumeric.deque.getD 1 0) 20 = true) :=
  ⟨by decide, by decide, rfl, by decide, by decide,
    numericColumn_boundFilter_tight exampleNumeric (by decide) (by decide)
      SqlOp.ge 20 (fun a b => decide (b ≤ a)) rfl (by decide) 1 (by decide)⟩

/-- C4 counterexample: `IdColumn::BoundFilter` returns the default-constructed
`Bounds`, whose `max_idx` is `4294967295` — not the length of any backing
sequence: for a table of, say, 3 rows it violates
`min_idx <= max_idx <= sequence length`. -/
theorem idColumn_boundFilter_not_table_bounded :
    (IdColumn.BoundFilter exampleId SqlOp.eq SqlValue.null).max_idx = 4294967295 ∧
    ¬((IdColumn.BoundFilter exampleId SqlOp.eq SqlValue.null).max_idx ≤ 3) := by
  decide

/-- C4 (amended): `NumericColumn::BoundFilter` and `StringColumn::BoundFilter`
return `{0, len, consumed = false}` whenever they cannot prove a tighter
bound, and every `Bounds` they return satisfies
`min_idx <= max_idx <= sequence length`; `IdColumn::BoundFilter`, which has
no backing sequence, instead returns the default-constructed
`{0, 4294967295, consumed = false}` for every operator and value. -/
theorem boundFilter_unconsumed_default_and_invariant :
    (∀ (nc : NumericColumn) (op : SqlOp) (v : Int),
      ((nc.BoundFilter op v).consumed = false →
        nc.BoundFilter op v = { min_idx := 0, max_idx := nc.deque.length, consumed := false }) ∧
      (nc.BoundFilter op v).min_idx ≤ (nc.BoundFilter op v).max_idx ∧
      (nc.BoundFilter op v).max_idx ≤ nc.deque.length) ∧
    (∀ (sc : StringColumn) (op : SqlOp) (value : SqlValue),
      sc.BoundFilter op value = { min_idx := 0, max_idx := sc.deque.length, consumed := false }) ∧
    (∀ (ic : IdColumn) (op : SqlOp) (value : SqlValue),
      ic.BoundFilter op value = { min_idx := 0, max_idx := 4294967295, consumed := false }) := by
  refine ⟨fun nc op v => ?_, fun sc op value => rfl, fun ic op value => rfl⟩
  rcases boundFilter_cases nc op v with ⟨heq, _⟩ | ⟨_, _, heq⟩
  · rw [heq]
    exact ⟨fun _ => rfl, Nat.zero_le _, le_refl _⟩
  · rw [heq]
    simp only
    have h1 := lowerBoundIdx_le_length nc.deque (nc.resolvedRange op v).1
    have h2 := upperBoundIdx_le_length
      (nc.deque.drop (lowerBoundIdx nc.deque (nc.resolvedRange op v).1)) (nc.resolvedRange op v).2
    rw [List.length_drop] at h2
    refine ⟨fun hc => by simp at hc, ?_, ?_⟩ <;> omega

/-- C4 (amended) witness: on the example numeric column an unsupported
operator yields the unconsumed full bound, and the concrete invariant holds. -/
theorem boundFilter_unconsumed_default_and_invariant_witness :
    (exampleNumeric.BoundFilter SqlOp.glob 20).consumed = false ∧
    exampleNumeric.BoundFilter SqlOp.glob 20 =
      { min_idx := 0, max_idx := exampleNumeric.deque.length, consumed := false } :=
  ⟨by decide,
    (boundFilter_unconsumed_default_and_invariant.1 exampleNumeric SqlOp.glob 20).1 (by decide)⟩

/-- C5: for a naturally ordered `NumericColumn`, when the resolved `[min, max]`
value range still spans the sentinel range the unconsumed full bound is
returned; otherwise the bound is consumed, `min_idx` is the first index whose
value is `>= min` (lower bound over the whole sequence, every earlier value
being smaller), and `max_idx` is the first index at or after `min_idx` whose
value is `> max` (upper bound searched from `min_idx`). -/
theorem numericColumn_boundFilter_binary_search (c : NumericColumn)
    (hord : c.is_naturally_ordered = true) (op : SqlOp) (v : Int) :
    (((c.resolvedRange op v).1 ≤ c.kTMin ∧ c.kTMax ≤ (c.resolvedRange op v).2) →
      c.BoundFilter op v = { min_idx := 0, max_idx := c.deque.length, consumed := false }) ∧
    (¬((c.resolvedRange op v).1 ≤ c.kTMin ∧ c.kTMax ≤ (c.resolvedRange op v).2) →
      (c.BoundFilter op v).consumed = true ∧
      (∀ j, j < (c.BoundFilter op v).min_idx → c.deque.getD j 0 < (c.resolvedRange op v).1) ∧
      ((c.BoundFilter op v).min_idx < c.deque.length →
        (c.resolvedRange op v).1 ≤ c.deque.getD (c.BoundFilter op v).min_idx 0) ∧
      (c.BoundFilter op v).min_idx ≤ (c.BoundFilter op v).max_idx ∧
      (∀ j, (c.BoundFilter op v).min_idx ≤ j → j < (c.BoundFilter op v).max_idx →
        c.deque.getD j 0 ≤ (c.resolvedRange op v).2) ∧
      ((c.BoundFilter op v).max_idx < c.deque.length →
        (c.resolvedRange op v).2 < c.deque.getD (c.BoundFilter op v).max_idx 0)) := by
  rcases boundFilter_cases c op v with ⟨heq, hcase⟩ | ⟨_, hns, heq⟩
  · rcases hcase with hfalse | hsent
    · rw [hord] at hfalse
      exact absurd hfalse (by simp)
    · exact ⟨fun _ => heq, fun hns => absurd hsent hns⟩
  · refine ⟨fun hsent => absurd hsent hns, fun _ => ?_⟩
    rw [heq]
    simp only
    refine ⟨trivial, fun j hj => getD_lt_of_lt_lowerBoundIdx hj,
      fun hlt => le_getD_lowerBoundIdx hlt, Nat.le_add_right _ _, ?_, ?_⟩
    · intro j hj1 hj2
      have hd : j - lowerBoundIdx c.deque (c.resolvedRange op v).1 <
          upperBoundIdx (c.deque.drop (lowerBoundIdx c.deque (c.resolvedRange op v).1))
            (c.resolvedRange op v).2 := by
        omega
      have h3 := getD_le_of_lt_upperBoundIdx hd
      rwa [getD_drop_int, Nat.add_sub_cancel' hj1] at h3
    · intro hlt
      have hub : upperBoundIdx (c.deque.drop (lowerBoundIdx c.deque (c.resolvedRange op v).1))
          (c.resolvedRange op v).2 <
          (c.deque.drop (lowerBoundIdx c.deque (c.resolvedRange op v).1)).length := by
        rw [List.length_drop]
        omega
      have h3 := lt_getD_upperBoundIdx hub
      rwa [getD_drop_int] at h3

/-- C5 witness: on the example column a `!=` constraint leaves the sentinel
range untouched and the unconsumed full bound is returned. -/
theorem numericColumn_boundFilter_binary_search_witness :
    exampleNumeric.is_naturally_ordered = true ∧
    ((exampleNumeric.resolvedRange SqlOp.ne 20).1 ≤ exampleNumeric.kTMin ∧
      exampleNumeric.kTMax ≤ (exampleNumeric.resolvedRange SqlOp.ne 20).2) ∧
    exampleNumeric.BoundFilter SqlOp.ne 20 =
      { min_idx := 0, max_idx := exampleNumeric.deque.length, consumed := false } :=
  ⟨rfl, by decide,
    (numericColumn_boundFilter_binary_search exampleNumeric rfl SqlOp.ne 20).1 (by decide)⟩

/-- C9: `IdColumn::BoundFilter` returns the default-constructed `Bounds`
`{0, 4294967295, false}` (its `max_idx` being the maximum 32-bit unsigned
integer `2 ^ 32 - 1`) for every operator and value, unlike
`StringColumn::BoundFilter` and `NumericColumn::BoundFilter`, which set
`max_idx` to the backing sequence's size. -/
theorem idColumn_boundFilter_default :
    (∀ (ic : IdColumn) (op : SqlOp) (value : SqlValue),
      ic.BoundFilter op value = ({} : Bounds) ∧
      (ic.BoundFilter op value).max_idx = 2 ^ 32 - 1 ∧
      (ic.BoundFilter op value).min_idx = 0 ∧
      (ic.BoundFilter op value).consumed = false) ∧
    (∀ (sc : StringColumn) (op : SqlOp) (value : SqlValue),
      (sc.BoundFilter op value).max_idx = sc.deque.length) ∧
    (∀ (nc : NumericColumn) (op : SqlOp) (v : Int),
      (nc.BoundFilter op v).consumed = false →
      (nc.BoundFilter op v).max_idx = nc.deque.length) := by
  refine ⟨fun ic op value => ⟨rfl, rfl, rfl, rfl⟩, fun sc op value => rfl,
    fun nc op v hc => ?_⟩
  rcases boundFilter_cases nc op v with ⟨heq, _⟩ | ⟨_, _, heq⟩
  · rw [heq]
  · rw [heq] at hc
    simp at hc

/-- C9 witness: concrete instances of all three column kinds. -/
theorem idColumn_boundFilter_default_witness :
    (exampleNumeric.BoundFilter SqlOp.glob 7).consumed = false ∧
    (exampleNumeric.BoundFilter SqlOp.glob 7).max_idx = exampleNumeric.deque.length :=
  ⟨by decide,
    idColumn_boundFilter_default.2.2 exampleNumeric SqlOp.glob 7 (by decide)⟩

/-- C3: for each column kind, the row set surviving `Filter` over the full row
range equals the rows on which a naive per-row evaluation of the column's
predicate returns true: `NumericColumn` under any comparison domain and cast
(`FilterWithCast`), `StringColumn` whose filter is the pass-through predicate,
and `IdColumn` over encoded RowIds. -/
theorem filter_matches_naive_predicate :
    (∀ {C : Type} [LinearOrder C] (c : NumericColumn) (castF : Int → C) (op : SqlOp)
      (extracted : C) (n : Nat) (binary_op : C → C → Bool),
      GetPredicateForOp op = some binary_op →
      c.FilterWithCast castF op extracted ⟨List.range n⟩ =
        some ⟨(List.range n).filter fun row =>
          binary_op (castF (c.deque.getD row 0)) extracted⟩) ∧
    (∀ (sc : StringColumn) (op : SqlOp) (value : SqlValue) (n : Nat),
      sc.Filter op value ⟨List.range n⟩ = ⟨(List.range n).filter fun _ => true⟩) ∧
    (∀ (ic : IdColumn) (op : SqlOp) (extracted : Int) (n : Nat)
      (binary_op : Int → Int → Bool),
      GetPredicateForOp op = some binary_op →
      ic.Filter op extracted ⟨List.range n⟩ =
        some ⟨(List.range n).filter fun row =>
          binary_op (CreateRowId ic.table_id row) extracted⟩) := by
  refine ⟨?_, ?_, ?_⟩
  · intro C inst c castF op extracted n binary_op hp
    simp [NumericColumn.FilterWithCast, hp, FilteredRowIndex.FilterRows]
  · intro sc op value n
    simp [StringColumn.Filter]
  · intro ic op extracted n binary_op hp
    simp [IdColumn.Filter, hp, FilteredRowIndex.FilterRows]

/-- C3 witness: the example column with `Filter(>=, 20)` over rows `0..4`
survives exactly rows `{1, 2, 3, 4}`. -/
theorem filter_matches_naive_predicate_witness :
    GetPredicateForOp (C := Int) SqlOp.ge = some (fun a b => decide (b ≤ a)) ∧
    exampleNumeric.FilterWithCast (fun x : Int => x) SqlOp.ge (20 : Int) ⟨List.range 5⟩ =
      some ⟨(List.range 5).filter fun row =>
        (fun a b : Int => decide (b ≤ a)) ((fun x : Int => x) (exampleNumeric.deque.getD row 0)) 20⟩ :=
  ⟨rfl, filter_matches_naive_predicate.1 exampleNumeric (fun x : Int => x) SqlOp.ge 20 5
    (fun a b => decide (b ≤ a)) rfl⟩

/-- C6: `NumericColumn::Filter` dispatches to the 64-bit signed integer
comparison domain exactly when the dynamic value is an integer and `T` is an
integral type, to the floating-point (double) domain exactly when the value
is an integer or a float and the first case does not apply, and hits the
fatal contract-violation branch exactly when the value is text or null. -/
theorem numericColumn_filter_dispatch (t_is_integral : Bool) (value : SqlValue) :
    (NumericColumn.FilterDomainOf t_is_integral value = FilterDomain.int64 ↔
      (t_is_integral = true ∧ ∃ i, value = SqlValue.integer i)) ∧
    (NumericColumn.FilterDomainOf t_is_integral value = FilterDomain.double ↔
      (((∃ i, value = SqlValue.integer i) ∨ value = SqlValue.float) ∧
        ¬(t_is_integral = true ∧ ∃ i, value = SqlValue.integer i))) ∧
    (NumericColumn.FilterDomainOf t_is_integral value = FilterDomain.fatal ↔
      ((∃ s, value = SqlValue.text s) ∨ value = SqlValue.null)) := by
  cases value <;> cases t_is_integral <;>
    simp [NumericColumn.FilterDomainOf]

/-- C6 witness: an integer literal against an integral column picks the
int64 domain. -/
theorem numericColumn_filter_dispatch_witness :
    NumericColumn.FilterDomainOf true (SqlValue.integer 7) = FilterDomain.int64 :=
  ((numericColumn_filter_dispatch true (SqlValue.integer 7)).1).mpr ⟨rfl, 7, rfl⟩

/-- C8: `StringColumn::ReportResult` reports null exactly when the text
resolved through the string table for the row's id is the empty string, and
reports that exact text otherwise. -/
theorem stringColumn_reportResult_null_convention (c : StringColumn) (row : Nat) :
    (c.ReportResult row = none ↔ c.resolveString row = "") ∧
    (c.resolveString row ≠ "" → c.ReportResult row = some (c.resolveString row)) := by
  simp only [StringColumn.ReportResult]
  by_cases h : c.resolveString row = ""
  · simp [h, String.isEmpty_iff]
  · have h2 : (c.resolveString row).isEmpty = false := by
      rw [Bool.eq_false_iff]
      intro hc
      exact h ((String.isEmpty_iff _).mp hc)
    simp [h2, h]

/-- C8 witness: on the example string column row 1 resolves to `"foo"` and is
reported as that text. -/
theorem stringColumn_reportResult_null_convention_witness :
    exampleString.resolveString 1 ≠ "" ∧
    exampleString.ReportResult 1 = some (exampleString.resolveString 1) :=
  ⟨by decide, (stringColumn_reportResult_null_convention exampleString 1).2 (by decide)⟩

theorem compareValuesDesc_eq_neg {α : Type} [LinearOrder α] (a b : α) :
    CompareValuesDesc a b = -CompareValuesAsc a b := by
  unfold CompareValuesAsc CompareValuesDesc
  rcases lt_trichotomy a b with h | h | h
  · simp [h, asymm h]
  · subst h
    simp [lt_irrefl]
  · simp [h, asymm h]

theorem compareValuesAsc_nonpos {α : Type} [LinearOrder α] (a b : α) :
    CompareValuesAsc a b ≤ 0 ↔ a ≤ b := by
  unfold CompareValuesAsc
  rcases lt_trichotomy a b with h | h | h
  · simp [h, le_of_lt h]
  · subst h
    simp
  · simp [h, asymm h, not_le_of_lt h]

/-- C7: for each column kind, the comparator returned by `Sort` with
`descending = true` is pointwise the negation of the ascending comparator;
and any row-index list pairwise consistent with the ascending comparator
(i.e. the outcome of sorting by it) carries a non-decreasing sequence of the
column's underlying values (deque values, resolved strings, encoded
RowIds). -/
theorem column_sort_direction_and_order :
    (∀ (c : NumericColumn) (i f s : Nat),
      c.Sort { iColumn := i, desc := true } f s =
        -(c.Sort { iColumn := i, desc := false } f s)) ∧
    (∀ (sc : StringColumn) (i f s : Nat),
      sc.Sort { iColumn := i, desc := true } f s =
        -(sc.Sort { iColumn := i, desc := false } f s)) ∧
    (∀ (ic : IdColumn) (i f s : Nat),
      ic.Sort { iColumn := i, desc := true } f s =
        -(ic.Sort { iColumn := i, desc := false } f s)) ∧
    (∀ (c : NumericColumn) (i : Nat) (rows : List Nat),
      rows.Pairwise (fun a b => c.Sort { iColumn := i, desc := false } a b ≤ 0) →
      (rows.map fun r => c.deque.getD r 0).Sorted (· ≤ ·)) ∧
    (∀ (sc : StringColumn) (i : Nat) (rows : List Nat),
      rows.Pairwise (fun a b => sc.Sort { iColumn := i, desc := false } a b ≤ 0) →
      (rows.map fun r => sc.resolveString r).Sorted (· ≤ ·)) ∧
    (∀ (ic : IdColumn) (i : Nat) (rows : List Nat),
      rows.Pairwise (fun a b => ic.Sort { iColumn := i, desc := false } a b ≤ 0) →
      (rows.map fun r => CreateRowId ic.table_id r).Sorted (· ≤ ·)) := by
  refine ⟨fun c i f s => ?_, fun sc i f s => ?_, fun ic i f s => ?_,
    fun c i rows h => ?_, fun sc i rows h => ?_, fun ic i rows h => ?_⟩
  · simp [NumericColumn.Sort, compareValuesDesc_eq_neg]
  · simp [StringColumn.Sort, compareValuesDesc_eq_neg]
  · simp [IdColumn.Sort, compareValuesDesc_eq_neg]
  · rw [List.Sorted, List.pairwise_map]
    exact h.imp fun hab =>
      (compareValuesAsc_nonpos _ _).mp (by simpa [NumericColumn.Sort] using hab)
  · rw [List.Sorted, List.pairwise_map]
    exact h.imp fun hab =>
      (compareValuesAsc_nonpos _ _).mp (by simpa [StringColumn.Sort] using hab)
  · rw [List.Sorted, List.pairwise_map]
    exact h.imp fun hab =>
      (compareValuesAsc_nonpos _ _).mp (by simpa [IdColumn.Sort] using hab)

/-- C7 witness: rows `[0, 1]` of the example column are consistent with the
ascending comparator and carry non-decreasing values. -/
theorem column_sort_direction_and_order_witness :
    List.Pairwise (fun a b => exampleNumeric.Sort { iColumn := 0, desc := false } a b ≤ 0) [0, 1] ∧
    ([0, 1].map fun r => exampleNumeric.deque.getD r 0).Sorted (· ≤ ·) :=
  ⟨by decide,
    column_sort_direction_and_order.2.2.2.1 exampleNumeric 0 [0, 1] (by decide)⟩

/-- C10: the only state any column operation mutates is the
`FilteredRowIndex` handed to `Filter`, and `Filter` only narrows it:
the surviving rows of `NumericColumn::FilterWithCast` and `IdColumn::Filter`
are a sublist of the incoming candidate rows, and `StringColumn::Filter`
returns the candidate set untouched; every other operation is a pure
function of the column that returns a fresh value. -/
theorem column_filter_only_narrows :
    (∀ {C : Type} [LinearOrder C] (c : NumericColumn) (castF : Int → C) (op : SqlOp)
      (extracted : C) (index out : FilteredRowIndex),
      c.FilterWithCast castF op extracted index = some out → out.rows.Sublist index.rows) ∧
    (∀ (sc : StringColumn) (op : SqlOp) (value : SqlValue) (index : FilteredRowIndex),
      sc.Filter op value index = index) ∧
    (∀ (ic : IdColumn) (op : SqlOp) (extracted : Int) (index out : FilteredRowIndex),
      ic.Filter op extracted index = some out → out.rows.Sublist index.rows) := by
  refine ⟨?_, fun sc op value index => rfl, ?_⟩
  · intro C inst c castF op extracted index out h
    unfold NumericColumn.FilterWithCast at h
    cases hg : GetPredicateForOp (C := C) op with
    | none =>
        rw [hg] at h
        simp at h
    | some binary_op =>
        rw [hg] at h
        simp only [Option.map_some'] at h
        injection h with h2
        rw [← h2]
        exact List.filter_sublist _
  · intro ic op extracted index out h
    unfold IdColumn.Filter at h
    cases hg : GetPredicateForOp (C := Int) op with
    | none =>
        rw [hg] at h
        simp at h
    | some binary_op =>
        rw [hg] at h
        simp only [Option.map_some'] at h
        injection h with h2
        rw [← h2]
        exact List.filter_sublist _

/-- C10 witness: filtering rows `0..4` of the example column by `>= 20`
survives `[1, 2, 3, 4]`, a sublist of the input. -/
theorem column_filter_only_narrows_witness :
    exampleNumeric.FilterWithCast (fun x : Int => x) SqlOp.ge (20 : Int) ⟨[0, 1, 2, 3, 4]⟩ =
      some ⟨[1, 2, 3, 4]⟩ ∧
    List.Sublist [1, 2, 3, 4] [0, 1, 2, 3, 4] :=
  ⟨by decide,
    column_filter_only_narrows.1 exampleNumeric (fun x : Int => x) SqlOp.ge 20
      ⟨[0, 1, 2, 3, 4]⟩ ⟨[1, 2, 3, 4]⟩ (by decide)⟩

end StorageColumns
